import Mathlib

/-! Verification development for the characteristic module of a HomeKit
accessory protocol library (`src/characteristic/mod.rs`).

The module defines a generic `Characteristic<T>` with typed `get_value` /
`set_value`, a type-erased `HapCharacteristic` interface whose `set_value`
takes an untyped JSON value and performs a boolean coercion quirk, optional
read (`Readable`) and update (`Updatable`) hooks, change-event emission
through a shared emitter, and a custom `Serialize` implementation that
emits only populated fields.

The embedding below mirrors the Rust code statement by statement.  Methods
taking `&mut self` become state-passing functions; the `?` early returns of
`Result` become `Except`-style branches that return the state unchanged.
Hook trait objects become explicit state machines (a state plus a
transition function).  To reason about the execution order inside
`set_value` (hook call, event emission, commit), the embedded `set_value`
also returns the list of observable actions in the order the Rust code
performs them; the emitted events are the `emit` actions of that trace.
-/

namespace Hap

/-- Model of a `serde_json` number: backed either by an integer
(`u64`/`i64` in serde_json) or by a floating-point number, which we
represent as a rational since only "is it an integer in range" matters. -/
inductive JsonNum where
  | int (i : Int)
  | float (q : Rat)
deriving DecidableEq

/-- Model of `serde_json::Value`. -/
inductive Json where
  | null
  | bool (b : Bool)
  | num (n : JsonNum)
  | str (s : String)
  | arr (elems : List Json)
  | obj (fields : List (String × Json))

/-- Predicate `serde_json::Value::is_number`. -/
def Json.isNumber : Json → Bool
  | .num _ => true
  | _ => false

/-- Model of `std::io::Error` as used by this module: `serde_json` errors
are converted by `?` into an error of kind `InvalidData`, while the module
itself constructs `Error::new(ErrorKind::Other, "invalid value")`. -/
inductive HapError where
  | invalidData (msg : String)
  | other (msg : String)
deriving DecidableEq

/-- Function `serde_json::from_value::<u8>`: succeeds exactly on integer-backed
numbers in `0..=255`; floats and out-of-range integers fail. -/
def from_value_u8 : Json → Except String Nat
  | .num (.int i) =>
      if 0 ≤ i ∧ i ≤ 255 then .ok i.toNat
      else .error "invalid value: integer out of range, expected u8"
  | .num (.float _) => .error "invalid type: floating point number, expected u8"
  | _ => .error "invalid type: not a number, expected u8"

/-- Trait `serde::Serialize` for value types: conversion to a JSON tree
(`json!(&val)`). -/
class Serialize (T : Type) where
  to_json : T → Json

/-- Trait `serde::Deserialize` for value types: `serde_json::from_value::<T>`. -/
class Deserialize (T : Type) where
  from_value : Json → Except String T

instance : Serialize Bool where
  to_json b := Json.bool b

instance : Deserialize Bool where
  from_value
    | .bool b => .ok b
    | _ => .error "invalid type: expected a boolean"

instance : Serialize Nat where
  to_json n := Json.num (JsonNum.int n)

instance : Deserialize Nat where
  from_value
    | .num (.int i) => if 0 ≤ i then .ok i.toNat else .error "invalid value: expected unsigned"
    | _ => .error "invalid type: expected an integer"

/-- Type `HapType` lives in the `hap_type` module of the crate (outside this file);
the characteristic treats it as an opaque protocol-defined semantic tag,
so it is modelled as an opaque identifier. -/
structure HapType where
  code : String
deriving DecidableEq

def HapType.to_json (t : HapType) : Json := Json.str t.code

/-- Type `Event` lives in the `event` module of the crate (outside this file); the
only variant this module constructs is `CharacteristicValueChanged { aid,
iid, value }`. -/
inductive Event where
  | characteristicValueChanged (aid : Nat) (iid : Nat) (value : Json)

/-- Type `EmitterPtr` (from the `event` module) is a shared, reference-counted
handle to the process-wide event sink; this module only checks its
presence and calls `emit` through it, so it is modelled as an opaque
token, with emission recorded in the action trace. -/
structure EmitterPtr where
  tag : Nat
deriving DecidableEq

/-- Hook trait `Readable<T>`: `on_read(&mut self, hap_type) -> T`.
A trait object with interior mutable state is modelled as a state machine:
a current state plus a transition returning the new state and the value. -/
structure Readable (ρ T : Type) where
  state : ρ
  on_read : ρ → HapType → ρ × T

/-- Hook trait `Updatable<T>`:
`on_update(&mut self, hap_type, old_val: &T, new_val: &T)`. -/
structure Updatable (υ T : Type) where
  state : υ
  on_update : υ → HapType → T → T → υ

/-- Enum `Perm`. -/
inductive Perm where
  | PairedRead
  | PairedWrite
  | Events
  | AdditionalAuthorization
  | TimedWrite
  | Hidden
deriving DecidableEq

/-- serde rename mapping of `Perm`. -/
def Perm.to_json : Perm → Json
  | .PairedRead => .str "pr"
  | .PairedWrite => .str "pw"
  | .Events => .str "ev"
  | .AdditionalAuthorization => .str "aa"
  | .TimedWrite => .str "tw"
  | .Hidden => .str "hd"

/-- Enum `Unit` of physical units. -/
inductive Unit where
  | Percentage
  | ArcDegrees
  | Celsius
  | Lux
  | Seconds
deriving DecidableEq

/-- serde rename mapping of `Unit`. -/
def Unit.to_json : Unit → Json
  | .Percentage => .str "percentage"
  | .ArcDegrees => .str "arcdegrees"
  | .Celsius => .str "celsius"
  | .Lux => .str "lux"
  | .Seconds => .str "seconds"

/-- Enum `Format`. -/
inductive Format where
  | String
  | Bool
  | Float
  | UInt8
  | UInt16
  | UInt32
  | UInt64
  | Int32
  | Tlv8
  | Data
deriving DecidableEq

/-- serde rename mapping of `Format`. -/
def Format.to_json : Format → Json
  | .String => .str "string"
  | .Bool => .str "bool"
  | .Float => .str "float"
  | .UInt8 => .str "uint8"
  | .UInt16 => .str "uint16"
  | .UInt32 => .str "uint32"
  | .UInt64 => .str "uint64"
  | .Int32 => .str "int32"
  | .Tlv8 => .str "tlv8"
  | .Data => .str "data"

instance : Inhabited Format := ⟨Format.String⟩

/-- Struct `Characteristic<T>`.  `ρ` and `υ` are the state types of
the attached read/update hook objects (in Rust those live inside the boxed
trait objects). -/
structure Characteristic (T ρ υ : Type) where
  id : Nat
  accessory_id : Nat
  hap_type : HapType
  format : Format
  perms : List Perm
  description : Option String
  event_notifications : Option Bool
  value : T
  unit : Option Unit
  max_value : Option T
  min_value : Option T
  step_value : Option T
  max_len : Option Nat
  max_data_len : Option Nat
  valid_values : Option (List T)
  valid_values_range : Option (T × T)
  readable : Option (Readable ρ T)
  updatable : Option (Updatable υ T)
  event_emitter : Option EmitterPtr

/-- One observable action performed during `set_value`, in program order:
the update-hook invocation with the (old, new) pair, an event emission,
and the final write `self.value = val` (the commit). -/
inductive Action (T : Type) where
  | on_update (old_val new_val : T)
  | emit (e : Event)
  | commit (v : T)

variable {T ρ υ : Type}

/-- The events among a trace of actions. -/
def emitted : List (Action T) → List Event
  | [] => []
  | .emit e :: rest => e :: emitted rest
  | _ :: rest => emitted rest

namespace Characteristic

def get_id (c : Characteristic T ρ υ) : Nat := c.id

def set_id (c : Characteristic T ρ υ) (id : Nat) : Characteristic T ρ υ :=
  { c with id := id }

def set_accessory_id (c : Characteristic T ρ υ) (accessory_id : Nat) :
    Characteristic T ρ υ :=
  { c with accessory_id := accessory_id }

def get_type (c : Characteristic T ρ υ) : HapType := c.hap_type

def get_format (c : Characteristic T ρ υ) : Format := c.format

def get_perms (c : Characteristic T ρ υ) : List Perm := c.perms

def set_description (c : Characteristic T ρ υ) (description : Option String) :
    Characteristic T ρ υ :=
  { c with description := description }

def get_event_notifications (c : Characteristic T ρ υ) : Option Bool :=
  c.event_notifications

def set_event_notifications (c : Characteristic T ρ υ)
    (event_notifications : Option Bool) : Characteristic T ρ υ :=
  { c with event_notifications := event_notifications }

/-- Method `Characteristic::set_value` (`&mut self`, returns `Result<(), Error>`).
Program order per the source: (1) if an update hook is attached, call
`on_update(hap_type, &self.value, &val)`; (2) if
`event_notifications == Some(true)` and an emitter is present, emit
`CharacteristicValueChanged { aid, iid, value: json!(&val) }`;
(3) `self.value = val`; (4) return `Ok(())`.  The commented-out min/max
bound checks in the source are dead code and are not modelled.
The result is the new state paired with the ordered action trace, plus
the returned `Result`. -/
def set_value [Serialize T] (c : Characteristic T ρ υ) (val : T) :
    (Characteristic T ρ υ × List (Action T)) × Except HapError PUnit.{1} :=
  let upd := c.updatable.map fun h =>
    { h with state := h.on_update h.state c.hap_type c.value val }
  let tr1 : List (Action T) :=
    match c.updatable with
    | some _ => [Action.on_update c.value val]
    | none => []
  let tr2 : List (Action T) :=
    if c.event_notifications = some true then
      match c.event_emitter with
      | some _ =>
          [Action.emit (Event.characteristicValueChanged c.accessory_id c.id
            (Serialize.to_json val))]
      | none => []
    else []
  (({ c with updatable := upd, value := val }, tr1 ++ tr2 ++ [Action.commit val]),
    Except.ok PUnit.unit)

/-- Method `Characteristic::get_value` (`&mut self`, returns `Result<&T, Error>`).
If a read hook is attached, call `on_read(hap_type)` (mutating the hook
state), feed the fresh value through `set_value`, and return
`&self.value`; otherwise return the stored value directly. -/
def get_value [Serialize T] (c : Characteristic T ρ υ) :
    (Characteristic T ρ υ × List (Action T)) × Except HapError T :=
  match c.readable with
  | some h =>
      let pr := h.on_read h.state c.hap_type
      let c1 := { c with readable := some { h with state := pr.1 } }
      match c1.set_value pr.2 with
      | (st, .ok _) => (st, .ok st.1.value)
      | (st, .error e) => (st, .error e)
  | none => ((c, []), .ok c.value)

def get_unit (c : Characteristic T ρ υ) : Option Unit := c.unit

def get_max_value (c : Characteristic T ρ υ) : Option T := c.max_value

def set_max_value (c : Characteristic T ρ υ) (val : Option T) :
    Characteristic T ρ υ :=
  { c with max_value := val }

def get_min_value (c : Characteristic T ρ υ) : Option T := c.min_value

def set_min_value (c : Characteristic T ρ υ) (val : Option T) :
    Characteristic T ρ υ :=
  { c with min_value := val }

def get_step_value (c : Characteristic T ρ υ) : Option T := c.step_value

def set_step_value (c : Characteristic T ρ υ) (val : Option T) :
    Characteristic T ρ υ :=
  { c with step_value := val }

def get_max_len (c : Characteristic T ρ υ) : Option Nat := c.max_len

def set_readable (c : Characteristic T ρ υ) (readable : Readable ρ T) :
    Characteristic T ρ υ :=
  { c with readable := some readable }

def set_updatable (c : Characteristic T ρ υ) (updatable : Updatable υ T) :
    Characteristic T ρ υ :=
  { c with updatable := some updatable }

def set_event_emitter (c : Characteristic T ρ υ)
    (event_emitter : Option EmitterPtr) : Characteristic T ρ υ :=
  { c with event_emitter := event_emitter }

/-- Method `HapCharacteristic::set_value` (the type-erased interface), from the
source:


    if self.format == Format::Bool && value.is_number() {
        let num_v: u8 = serde_json::from_value(value)?;
        if num_v == 0 { v = serde_json::from_value(json!(false))?; }
        else if num_v == 1 { v = serde_json::from_value(json!(true))?; }
        else { return Err(Error::new(ErrorKind::Other, "invalid value")); }
    } else { v = serde_json::from_value(value)?; }
    self.set_value(v)

A `?` early return leaves `self` unchanged, so the error branches return
the incoming state with an empty action trace. -/
def hap_set_value [Serialize T] [Deserialize T] (c : Characteristic T ρ υ)
    (value : Json) :
    (Characteristic T ρ υ × List (Action T)) × Except HapError PUnit.{1} :=
  if c.format = Format.Bool ∧ value.isNumber = true then
    match from_value_u8 value with
    | .error m => ((c, []), .error (HapError.invalidData m))
    | .ok num_v =>
        if num_v = 0 then
          match Deserialize.from_value (T := T) (Json.bool false) with
          | .error m => ((c, []), .error (HapError.invalidData m))
          | .ok v => c.set_value v
        else if num_v = 1 then
          match Deserialize.from_value (T := T) (Json.bool true) with
          | .error m => ((c, []), .error (HapError.invalidData m))
          | .ok v => c.set_value v
        else
          ((c, []), .error (HapError.other "invalid value"))
  else
    match Deserialize.from_value (T := T) value with
    | .error m => ((c, []), .error (HapError.invalidData m))
    | .ok v => c.set_value v

/-- Method `HapCharacteristic::get_value`: `Ok(json!(self.get_value()?))`. -/
def hap_get_value [Serialize T] (c : Characteristic T ρ υ) :
    (Characteristic T ρ υ × List (Action T)) × Except HapError Json :=
  match c.get_value with
  | (st, .ok v) => (st, .ok (Serialize.to_json v))
  | (st, .error e) => (st, .error e)

/-- A field emitted only when its backing optional is populated. -/
def optField (name : String) : Option Json → List (String × Json)
  | some j => [(name, j)]
  | none => []

/-- Embedding of the `Serialize` impl for `Characteristic<T>`: the ordered JSON field
list.  `iid`, `type`, `format`, `perms` are unconditional; `value` is
emitted iff `perms` contains `Perm::PairedRead`; every other field is
emitted iff its backing optional is populated. -/
def serialize [Serialize T] (c : Characteristic T ρ υ) : List (String × Json) :=
  [("iid", Json.num (JsonNum.int c.id)),
   ("type", c.hap_type.to_json),
   ("format", c.format.to_json),
   ("perms", Json.arr (c.perms.map Perm.to_json))]
  ++ optField "description" (c.description.map Json.str)
  ++ optField "ev" (c.event_notifications.map Json.bool)
  ++ (if Perm.PairedRead ∈ c.perms then
        [("value", Serialize.to_json c.value)] else [])
  ++ optField "unit" (c.unit.map Unit.to_json)
  ++ optField "maxValue" (c.max_value.map Serialize.to_json)
  ++ optField "minValue" (c.min_value.map Serialize.to_json)
  ++ optField "minStep" (c.step_value.map Serialize.to_json)
  ++ optField "maxLen" (c.max_len.map fun n => Json.num (JsonNum.int n))
  ++ optField "maxDataLen" (c.max_data_len.map fun n => Json.num (JsonNum.int n))
  ++ optField "valid-values"
      (c.valid_values.map fun vs => Json.arr (vs.map Serialize.to_json))
  ++ optField "valid-values-range"
      (c.valid_values_range.map fun p =>
        Json.arr [Serialize.to_json p.1, Serialize.to_json p.2])

end Characteristic

/-- A concrete `Bool`-format characteristic used to instantiate theorems
with hypotheses at explicit inputs. -/
def sampleBoolChar : Characteristic Bool PUnit.{1} PUnit.{1} where
  id := 7
  accessory_id := 3
  hap_type := ⟨"on"⟩
  format := Format.Bool
  perms := [Perm.PairedRead, Perm.PairedWrite]
  description := none
  event_notifications := none
  value := false
  unit := none
  max_value := none
  min_value := none
  step_value := none
  max_len := none
  max_data_len := none
  valid_values := none
  valid_values_range := none
  readable := none
  updatable := none
  event_emitter := none

/-- A concrete `Bool`-format characteristic with a read hook that always
returns `true`, an update hook counting its invocations, notifications
enabled and an emitter attached. -/
def sampleHookedChar : Characteristic Bool PUnit.{1} Nat where
  id := 7
  accessory_id := 3
  hap_type := ⟨"on"⟩
  format := Format.Bool
  perms := [Perm.PairedRead, Perm.PairedWrite]
  description := none
  event_notifications := some true
  value := false
  unit := none
  max_value := none
  min_value := none
  step_value := none
  max_len := none
  max_data_len := none
  valid_values := none
  valid_values_range := none
  readable := some ⟨PUnit.unit, fun s _ => (s, true)⟩
  updatable := some ⟨0, fun n _ _ _ => n + 1⟩
  event_emitter := some ⟨0⟩

/-- Condition under which `serde_json::from_value::<u8>` fails on a number: it is not an
integer-backed number in `0..=255`. -/
def u8_decode_fails : JsonNum → Bool
  | .int i => decide (i < 0 ∨ 255 < i)
  | .float _ => true

/-- The field names of the serialized form, in emission order. -/
def serializedKeys [Serialize T] {ρ υ : Type} (c : Characteristic T ρ υ) :
    List String :=
  (c.serialize).map Prod.fst

section Theorems

variable {T ρ υ : Type}

theorem mem_map_fst_optField (s name : String) (o : Option Json) :
    s ∈ (Characteristic.optField name o).map Prod.fst ↔
      s = name ∧ o.isSome = true := by
  cases o <;> simp [Characteristic.optField]

/-- C7: the typed `set_value` returns `Ok` for every input value and every
characteristic, whatever its `min_value`, `max_value`, `step_value` or
`valid_values` metadata: no range constraint is enforced on writes. -/
theorem set_value_always_ok [Serialize T] (c : Characteristic T ρ υ) (v : T) :
    (c.set_value v).2 = Except.ok PUnit.unit := rfl

/-- C2: a successful typed `set_value` emits exactly one change event when
`event_notifications = some true` and an emitter is attached, and no event
in every other combination; the call succeeds in all cases. -/
theorem set_value_event_gating [Serialize T] (c : Characteristic T ρ υ) (v : T) :
    (c.set_value v).2 = Except.ok PUnit.unit ∧
    emitted (c.set_value v).1.2 =
      (if c.event_notifications = some true ∧ c.event_emitter.isSome = true then
        [Event.characteristicValueChanged c.accessory_id c.id
          (Serialize.to_json v)]
      else []) := by
  refine ⟨rfl, ?_⟩
  cases hu : c.updatable <;>
    cases hn : c.event_notifications <;>
    cases he : c.event_emitter <;>
    simp [Characteristic.set_value, emitted, hu, hn, he]
  all_goals rename_i b _; cases b <;> simp [emitted]

/-- C5: with an update hook attached, a typed `set_value v` produces the
action trace `on_update (old, v)`, then any event emission, then the
commit: the hook is invoked exactly once, with the old and new value, and
both the invocation and any emission happen strictly before the stored
value is overwritten. -/
theorem set_value_hook_before_commit [Serialize T] (c : Characteristic T ρ υ)
    (u : Updatable υ T) (hu : c.updatable = some u) (v : T) :
    (c.set_value v).1.2 =
      Action.on_update c.value v ::
      (if c.event_notifications = some true ∧ c.event_emitter.isSome = true then
        [Action.emit (Event.characteristicValueChanged c.accessory_id c.id
          (Serialize.to_json v))]
      else []) ++ [Action.commit v] := by
  cases hn : c.event_notifications <;>
    cases he : c.event_emitter <;>
    simp [Characteristic.set_value, hu, hn, he]

theorem set_value_hook_before_commit_witness :
    (sampleHookedChar.set_value true).1.2 =
      Action.on_update false true ::
      (if sampleHookedChar.event_notifications = some true ∧
          sampleHookedChar.event_emitter.isSome = true then
        [Action.emit (Event.characteristicValueChanged
          sampleHookedChar.accessory_id sampleHookedChar.id
          (Serialize.to_json true))]
      else []) ++ [Action.commit true] :=
  set_value_hook_before_commit sampleHookedChar ⟨0, fun n _ _ _ => n + 1⟩ rfl true

/-- C3: with no read hook attached, a typed `set_value v` followed by a
typed `get_value` returns `v` unchanged. -/
theorem set_then_get_roundtrip [Serialize T] (c : Characteristic T ρ υ)
    (hr : c.readable = none) (v : T) :
    ((c.set_value v).1.1.get_value).2 = Except.ok v := by
  have h1 : (c.set_value v).1.1.readable = none := hr
  simp [Characteristic.get_value, h1]
  rfl

theorem set_then_get_roundtrip_witness :
    ((sampleBoolChar.set_value true).1.1.get_value).2 = Except.ok true :=
  set_then_get_roundtrip sampleBoolChar rfl true

/-- C4: with a read hook attached, `get_value` invokes the hook, feeds the
fresh value through `set_value` (so an attached update hook fires, its
state advancing by one `on_update` step), stores the fresh value, and
returns it; with no read hook, `get_value` returns the stored value
directly and changes nothing. -/
theorem get_value_read_triggers_update {T2 ρ2 υ2 : Type}
    [Serialize T] [Serialize T2]
    (c : Characteristic T ρ υ) (d : Characteristic T2 ρ2 υ2)
    (r : Readable ρ T) (u : Updatable υ T)
    (hr : c.readable = some r) (hu : c.updatable = some u)
    (hd : d.readable = none) :
    (c.get_value).2 = Except.ok (r.on_read r.state c.hap_type).2 ∧
    (c.get_value).1.1.updatable = some
      ⟨u.on_update u.state c.hap_type c.value (r.on_read r.state c.hap_type).2,
        u.on_update⟩ ∧
    (c.get_value).1.1.value = (r.on_read r.state c.hap_type).2 ∧
    d.get_value = ((d, []), Except.ok d.value) := by
  refine ⟨?_, ?_, ?_, ?_⟩ <;>
    simp [Characteristic.get_value, Characteristic.set_value, hr, hu, hd]

theorem get_value_read_triggers_update_witness :
    (sampleHookedChar.get_value).2 = Except.ok true ∧
    (sampleHookedChar.get_value).1.1.updatable =
      some ⟨1, fun n _ _ _ => n + 1⟩ ∧
    (sampleHookedChar.get_value).1.1.value = true ∧
    sampleBoolChar.get_value = ((sampleBoolChar, []), Except.ok false) :=
  get_value_read_triggers_update sampleHookedChar sampleBoolChar
    ⟨PUnit.unit, fun s _ => (s, true)⟩ ⟨0, fun n _ _ _ => n + 1⟩ rfl rfl rfl

/-- C6: when the untyped input cannot be deserialized to the value type
(and the boolean-coercion branch does not apply), the erased `set_value`
returns a deserialization error synchronously, with the characteristic
entirely unchanged and no action performed. -/
theorem hap_set_value_decode_failure [Serialize T] [Deserialize T]
    (c : Characteristic T ρ υ) (j : Json) (m : String)
    (hnb : ¬(c.format = Format.Bool ∧ j.isNumber = true))
    (hd : Deserialize.from_value (T := T) j = Except.error m) :
    c.hap_set_value j = ((c, []), Except.error (HapError.invalidData m)) := by
  simp [Characteristic.hap_set_value, hnb, hd]

theorem hap_set_value_decode_failure_witness :
    sampleBoolChar.hap_set_value (Json.str "x") =
      ((sampleBoolChar, []),
        Except.error (HapError.invalidData "invalid type: expected a boolean")) :=
  hap_set_value_decode_failure sampleBoolChar (Json.str "x")
    "invalid type: expected a boolean" (by decide) rfl

theorem hap_set_value_u8_fail_aux [Serialize T] [Deserialize T]
    (c : Characteristic T ρ υ) (n : JsonNum)
    (hb : c.format = Format.Bool) (hn : u8_decode_fails n = true) :
    ∃ m, c.hap_set_value (Json.num n) =
      ((c, []), Except.error (HapError.invalidData m)) := by
  cases n with
  | int i =>
      have hi : ¬(0 ≤ i ∧ i ≤ 255) := by
        simp [u8_decode_fails] at hn
        omega
      exact ⟨"invalid value: integer out of range, expected u8",
        by simp [Characteristic.hap_set_value, hb, Json.isNumber,
          from_value_u8, hi]⟩
  | float q =>
      exact ⟨"invalid type: floating point number, expected u8",
        by simp [Characteristic.hap_set_value, hb, Json.isNumber,
          from_value_u8]⟩

/-- C10: on a `Bool`-format characteristic, a numeric input is first
decoded as a `u8`; if that decoding fails (the number is negative,
fractional, or greater than 255), the erased `set_value` returns a
deserialization error — not the "invalid value" error — with the
characteristic unchanged. -/
theorem hap_set_value_bool_numeric_u8_decode [Serialize T] [Deserialize T]
    (c : Characteristic T ρ υ) (n : JsonNum)
    (hb : c.format = Format.Bool) (hn : u8_decode_fails n = true) :
    ∃ m, c.hap_set_value (Json.num n) =
      ((c, []), Except.error (HapError.invalidData m)) :=
  hap_set_value_u8_fail_aux c n hb hn

theorem hap_set_value_bool_numeric_u8_decode_witness :
    ∃ m, sampleBoolChar.hap_set_value (Json.num (JsonNum.int 256)) =
      ((sampleBoolChar, []), Except.error (HapError.invalidData m)) :=
  hap_set_value_bool_numeric_u8_decode sampleBoolChar (JsonNum.int 256)
    rfl (by decide)

/-- C1 counterexample: on a `Bool`-format characteristic the numeric
input `256` is a numeric value other than 0 and 1, yet the erased
`set_value` does not return the hard "invalid value" error for it (it
returns a deserialization error instead, because the number is decoded as
a `u8` first). -/
theorem bool_coercion_nonu8_not_invalid_value :
    (Json.num (JsonNum.int 256)).isNumber = true ∧
    (sampleBoolChar.hap_set_value (Json.num (JsonNum.int 256))).2 ≠
      Except.error (HapError.other "invalid value") := by
  refine ⟨rfl, ?_⟩
  intro h
  have h2 : Except.error (HapError.invalidData
      "invalid value: integer out of range, expected u8") =
      (Except.error (HapError.other "invalid value") :
        Except HapError PUnit.{1}) := h
  exact absurd (Except.error.inj h2) (by simp)

/-- C1 (amended): on a `Bool`-format characteristic, the erased
`set_value` stores `false` for numeric `0` and `true` for numeric `1`;
every other numeric value that decodes as a `u8` (an integer in
`2..=255`) yields the hard "invalid value" error; a numeric value that
fails `u8` decoding (negative, fractional, or above 255) yields a
deserialization error instead; in both error cases the stored value — and
the whole characteristic — is unchanged and no event is emitted. -/
theorem bool_coercion_amended {ρ υ : Type} (c : Characteristic Bool ρ υ)
    (hb : c.format = Format.Bool) :
    ((c.hap_set_value (Json.num (JsonNum.int 0))).1.1.value = false ∧
     (c.hap_set_value (Json.num (JsonNum.int 0))).2 = Except.ok PUnit.unit) ∧
    ((c.hap_set_value (Json.num (JsonNum.int 1))).1.1.value = true ∧
     (c.hap_set_value (Json.num (JsonNum.int 1))).2 = Except.ok PUnit.unit) ∧
    (∀ i : Int, 2 ≤ i → i ≤ 255 →
      c.hap_set_value (Json.num (JsonNum.int i)) =
        ((c, []), Except.error (HapError.other "invalid value"))) ∧
    (∀ n : JsonNum, u8_decode_fails n = true →
      ∃ m, c.hap_set_value (Json.num n) =
        ((c, []), Except.error (HapError.invalidData m))) := by
  refine ⟨⟨?_, ?_⟩, ⟨?_, ?_⟩, ?_, ?_⟩
  · simp [Characteristic.hap_set_value, hb, Json.isNumber, from_value_u8,
      Deserialize.from_value, Characteristic.set_value]
  · simp [Characteristic.hap_set_value, hb, Json.isNumber, from_value_u8,
      Deserialize.from_value, Characteristic.set_value]
  · simp [Characteristic.hap_set_value, hb, Json.isNumber, from_value_u8,
      Deserialize.from_value, Characteristic.set_value]
  · simp [Characteristic.hap_set_value, hb, Json.isNumber, from_value_u8,
      Deserialize.from_value, Characteristic.set_value]
  · intro i h2 h255
    have hr : 0 ≤ i ∧ i ≤ 255 := ⟨by omega, h255⟩
    have hnz : ¬(i.toNat = 0) := by omega
    have hno : ¬(i.toNat = 1) := by omega
    simp [Characteristic.hap_set_value, hb, Json.isNumber, from_value_u8,
      hr, hnz, hno]
  · exact fun n hn => hap_set_value_u8_fail_aux (T := Bool) c n hb hn

theorem bool_coercion_amended_witness :
    (sampleBoolChar.hap_set_value (Json.num (JsonNum.int 1))).1.1.value = true ∧
    sampleBoolChar.hap_set_value (Json.num (JsonNum.int 2)) =
      ((sampleBoolChar, []), Except.error (HapError.other "invalid value")) :=
  ⟨(bool_coercion_amended sampleBoolChar rfl).2.1.1,
   (bool_coercion_amended sampleBoolChar rfl).2.2.1 2 (by decide) (by decide)⟩

theorem isSome_bind_some {α β : Type} (o : Option α) (f : α → β) :
    (o.bind fun a => some (f a)).isSome = o.isSome := by
  cases o <;> rfl

theorem map_fst_optField (name : String) (o : Option Json) :
    (Characteristic.optField name o).map Prod.fst =
      if o.isSome = true then [name] else [] := by
  cases o <;> simp [Characteristic.optField]

theorem serializedKeys_eq [Serialize T] (c : Characteristic T ρ υ) :
    serializedKeys c =
      ["iid", "type", "format", "perms"]
      ++ (if c.description.isSome = true then ["description"] else [])
      ++ (if c.event_notifications.isSome = true then ["ev"] else [])
      ++ (if Perm.PairedRead ∈ c.perms then ["value"] else [])
      ++ (if c.unit.isSome = true then ["unit"] else [])
      ++ (if c.max_value.isSome = true then ["maxValue"] else [])
      ++ (if c.min_value.isSome = true then ["minValue"] else [])
      ++ (if c.step_value.isSome = true then ["minStep"] else [])
      ++ (if c.max_len.isSome = true then ["maxLen"] else [])
      ++ (if c.max_data_len.isSome = true then ["maxDataLen"] else [])
      ++ (if c.valid_values.isSome = true then ["valid-values"] else [])
      ++ (if c.valid_values_range.isSome = true then ["valid-values-range"]
          else []) := by
  by_cases hpr : Perm.PairedRead ∈ c.perms <;>
    simp [serializedKeys, Characteristic.serialize, map_fst_optField,
      Option.isSome_map, isSome_bind_some, hpr]

theorem mem_ite_singleton (s name : String) (b : Prop) [Decidable b] :
    s ∈ (if b then [name] else ([] : List String)) ↔ b ∧ s = name := by
  split <;> rename_i h <;> simp [h]

/-- C8: serialization always emits `iid`, `type`, `format` and `perms`;
it emits `value` iff `perms` contains the paired-read flag; and it emits
each optional field iff the backing optional is populated — fields whose
backing optional is empty are absent, never null placeholders. -/
theorem serialize_field_emission [Serialize T] (c : Characteristic T ρ υ) :
    "iid" ∈ serializedKeys c ∧ "type" ∈ serializedKeys c ∧
    "format" ∈ serializedKeys c ∧ "perms" ∈ serializedKeys c ∧
    ("value" ∈ serializedKeys c ↔ Perm.PairedRead ∈ c.perms) ∧
    ("description" ∈ serializedKeys c ↔ c.description.isSome = true) ∧
    ("ev" ∈ serializedKeys c ↔ c.event_notifications.isSome = true) ∧
    ("unit" ∈ serializedKeys c ↔ c.unit.isSome = true) ∧
    ("maxValue" ∈ serializedKeys c ↔ c.max_value.isSome = true) ∧
    ("minValue" ∈ serializedKeys c ↔ c.min_value.isSome = true) ∧
    ("minStep" ∈ serializedKeys c ↔ c.step_value.isSome = true) ∧
    ("maxLen" ∈ serializedKeys c ↔ c.max_len.isSome = true) ∧
    ("maxDataLen" ∈ serializedKeys c ↔ c.max_data_len.isSome = true) ∧
    ("valid-values" ∈ serializedKeys c ↔ c.valid_values.isSome = true) ∧
    ("valid-values-range" ∈ serializedKeys c ↔
      c.valid_values_range.isSome = true) := by
  refine ⟨?_, ?_, ?_, ?_, ?_, ?_, ?_, ?_, ?_, ?_, ?_, ?_, ?_, ?_, ?_⟩ <;>
    simp [serializedKeys_eq, List.mem_append, mem_ite_singleton]

/-- C9: the instance id is settable via `set_id`, and no other operation
of the characteristic — metadata setters, hook attachment, emitter
replacement, the typed and erased `get_value`/`set_value` — changes the
value returned by `get_id`. -/
theorem id_immutable_after_set [Serialize T] [Deserialize T]
    (c : Characteristic T ρ υ) (i a : Nat) (d : Option String)
    (en : Option Bool) (v : T) (o : Option T) (em : Option EmitterPtr)
    (r : Readable ρ T) (u : Updatable υ T) (j : Json) :
    ((c.set_id i).get_id = i) ∧
    ((c.set_accessory_id a).get_id = c.get_id) ∧
    ((c.set_description d).get_id = c.get_id) ∧
    ((c.set_event_notifications en).get_id = c.get_id) ∧
    ((c.set_value v).1.1.get_id = c.get_id) ∧
    ((c.get_value).1.1.get_id = c.get_id) ∧
    ((c.hap_set_value j).1.1.get_id = c.get_id) ∧
    ((c.hap_get_value).1.1.get_id = c.get_id) ∧
    ((c.set_max_value o).get_id = c.get_id) ∧
    ((c.set_min_value o).get_id = c.get_id) ∧
    ((c.set_step_value o).get_id = c.get_id) ∧
    ((c.set_readable r).get_id = c.get_id) ∧
    ((c.set_updatable u).get_id = c.get_id) ∧
    ((c.set_event_emitter em).get_id = c.get_id) := by
  have hset : ∀ v2 : T, (c.set_value v2).1.1.get_id = c.get_id := fun _ => rfl
  have hget : (c.get_value).1.1.get_id = c.get_id := by
    cases hr : c.readable <;>
      simp [Characteristic.get_value, Characteristic.set_value, hr,
        Characteristic.get_id]
  have hhset : (c.hap_set_value j).1.1.get_id = c.get_id := by
    unfold Characteristic.hap_set_value
    split
    · cases from_value_u8 j with
      | error m => rfl
      | ok n =>
          by_cases h0 : n = 0 <;> by_cases h1 : n = 1 <;>
            simp [h0, h1] <;>
            cases Deserialize.from_value (T := T) (Json.bool false) <;>
            cases Deserialize.from_value (T := T) (Json.bool true) <;> rfl
    · cases Deserialize.from_value (T := T) j <;> rfl
  have hhget : (c.hap_get_value).1.1.get_id = c.get_id := by
    have h2 : (c.hap_get_value).1 = (c.get_value).1 := by
      unfold Characteristic.hap_get_value
      rcases hg : c.get_value with ⟨st, e⟩
      cases e <;> rfl
    rw [h2]
    exact hget
  exact ⟨rfl, rfl, rfl, rfl, hset v, hget, hhset, hhget, rfl, rfl, rfl,
    rfl, rfl, rfl⟩

end Theorems

end Hap
